import Mathlib

/-!
A shallow embedding of the errorWatch library (src/src/computeStackTrace.js,
src/src/report.js, src/src/config.js, src/src/utils.js) in Lean 4, together
with theorems settling the specification claims about it.

The JavaScript regular expressions that drive the stack-trace parsing are
kept verbatim as pattern strings and interpreted by a small backtracking
matcher for the regex dialect subset they use (anchors, classes, groups,
alternation, greedy/lazy quantifiers, the `i` flag, `\b`, `\xHH`/`\uHHHH`).
JavaScript values are modelled as follows: `undefined`/`null` become `none`
of an `Option`; JS truthiness of strings, numbers and booleans is made
explicit by the `truthyS`/`truthyI`/`truthyB` helpers; machine integers are
`Int`/`Nat` (no overflow is relevant: all numbers are small line/column
counts); code that can throw returns `Except JsExn`.
-/

set_option maxRecDepth 100000

namespace ErrorWatch

/-! ## JS value helpers -/

/-- A JavaScript exception escaping modelled code. -/
inductive JsExn where
  | typeError
  | userExn (n : Nat)
  deriving DecidableEq, Repr

/-- JS truthiness of a possibly-undefined string: `undefined`, `null` and the
empty string are falsy. -/
def truthyS : Option String → Bool
  | some s => s ≠ ""
  | none => false

/-- JS truthiness of a possibly-undefined number: `undefined`, `null` and `0`
are falsy. -/
def truthyI : Option Int → Bool
  | some n => n ≠ 0
  | none => false

/-- JS truthiness of a possibly-undefined boolean field. -/
def truthyB : Option Bool → Bool
  | some b => b
  | none => false

/-- JS `a || b` on (possibly undefined) strings. -/
def jsOrS (a b : Option String) : Option String :=
  if truthyS a then a else b

/-- JS `a || b` on (possibly undefined) numbers. -/
def jsOrI (a b : Option Int) : Option Int :=
  if truthyI a then a else b

/-- JS string coercion of a possibly-undefined string value (as happens when
`undefined` is passed where a string is expected, e.g. `re.exec(undefined)`). -/
def jsStr : Option String → String
  | some s => s
  | none => "undefined"

/-- Split a character list at a separator character. -/
def splitChars (sep : Char) : List Char → List (List Char)
  | [] => [[]]
  | c :: rest =>
    let r := splitChars sep rest
    if c = sep then [] :: r
    else
      match r with
      | [] => [[c]]
      | hd :: tl => (c :: hd) :: tl

/-- JS `String.prototype.split` with a one-character separator. -/
def jsSplit (s : String) (sep : Char) : List String :=
  (splitChars sep s.data).map String.mk

/-- Join with a separator character (JS `Array.prototype.join`). -/
def joinSep (sep : Char) : List String → String
  | [] => ""
  | [x] => x
  | x :: rest => x ++ String.mk [sep] ++ joinSep sep rest

/-- Join with a multi-character separator. -/
def joinStr (sep : String) : List String → String
  | [] => ""
  | [x] => x
  | x :: rest => x ++ sep ++ joinStr sep rest

/-- Decimal digits to a number. -/
def digitsToNat : List Char → Nat → Nat
  | [], acc => acc
  | c :: rest, acc => digitsToNat rest (acc * 10 + (c.toNat - '0'.toNat))

/-- First `some` produced along a list (JS-style linear search). -/
def firstSome (f : α → Option β) : List α → Option β
  | [] => none
  | a :: rest =>
    match f a with
    | some b => some b
    | none => firstSome f rest

/-- ASCII lower-casing (what the `i` flag needs here). -/
def chLower (c : Char) : Char :=
  if 'A' ≤ c ∧ c ≤ 'Z' then Char.ofNat (c.toNat + 32) else c

/-- ASCII upper-casing. -/
def chUpper (c : Char) : Char :=
  if 'a' ≤ c ∧ c ≤ 'z' then Char.ofNat (c.toNat - 32) else c

/-- 0-based read of a JS array of strings; out-of-range reads yield
`undefined` (`none`). -/
def jsAt (l : List String) (i : Int) : Option String :=
  if i < 0 then none else l.get? i.toNat

/-- JS `String.prototype.substring (0, j)` (a negative `j` clamps to 0). -/
def jsSubstring0 (s : String) (j : Int) : String :=
  String.mk (s.data.take j.toNat)

/-- JS `String.prototype.indexOf` for a substring; `-1` when absent. -/
def jsIndexOf (hay needle : String) : Int :=
  match (List.range (hay.length + 1)).find?
      (fun i => needle.data.isPrefixOf (hay.data.drop i)) with
  | some i => (i : Int)
  | none => -1

/-- Digits-only string to number (`+parts[k]` on a `\d+` capture). -/
def jsToNum (s : String) : Int :=
  (digitsToNat s.data 0 : Int)

/-! ## Regex dialect: AST -/

/-- One item of a character class. -/
inductive CItem where
  | lit (c : Char)
  | range (lo hi : Char)
  | dcls          -- \d
  | ndcls         -- \D
  | scls          -- \s
  | nscls         -- \S
  | wcls          -- \w
  | nwcls         -- \W
  deriving Repr

/-- A single-character test. -/
inductive CTest where
  | dot                                    -- `.` (anything but line terminators)
  | cls (neg : Bool) (items : List CItem)  -- `[...]`, `[^...]`, `\d`, ...
  deriving Repr

/-- Regex AST for the dialect subset used by the library. -/
inductive RE where
  | eps
  | test (t : CTest)
  | cat (a b : RE)
  | alt (a b : RE)
  | star (lzy : Bool) (a : RE)
  | opt (lzy : Bool) (a : RE)
  | group (i : Nat) (a : RE)
  | bol           -- ^
  | eol           -- $
  | wordB         -- \b
  deriving Repr

/-- JS `\s` (the whitespace characters relevant here). -/
def isJsSpace (c : Char) : Bool :=
  c = ' ' ∨ c = '\t' ∨ c = '\n' ∨ c = '\r' ∨ c.val = 11 ∨ c.val = 12 ∨
  c.val = 0xA0 ∨ c.val = 0xFEFF ∨ c.val = 0x2028 ∨ c.val = 0x2029

/-- JS `\w`. -/
def isJsWord (c : Char) : Bool :=
  (c ≥ 'a' ∧ c ≤ 'z') ∨ (c ≥ 'A' ∧ c ≤ 'Z') ∨ (c ≥ '0' ∧ c ≤ '9') ∨ c = '_'

def citemMatch (it : CItem) (c : Char) : Bool :=
  match it with
  | .lit d => c = d
  | .range lo hi => lo ≤ c ∧ c ≤ hi
  | .dcls => c.isDigit
  | .ndcls => ¬ c.isDigit
  | .scls => isJsSpace c
  | .nscls => ¬ isJsSpace c
  | .wcls => isJsWord c
  | .nwcls => ¬ isJsWord c

/-- Match a character test, honouring the `i` flag by also trying the
case-folded variants of the character. -/
def ctestMatch (ic : Bool) (t : CTest) (c : Char) : Bool :=
  let cands := if ic then [c, chLower c, chUpper c] else [c]
  match t with
  | .dot => ¬ (c = '\n' ∨ c = '\r' ∨ c.val = 0x2028 ∨ c.val = 0x2029)
  | .cls neg items =>
      let hit := cands.any (fun d => items.any (fun it => citemMatch it d))
      if neg then ¬ hit else hit

/-! ## Regex dialect: pattern parser -/

/-- Parse a decimal number prefix. -/
def pNum (s : List Char) : Option (Nat × List Char) :=
  let ds := s.takeWhile Char.isDigit
  if ds.isEmpty then none
  else some (digitsToNat ds 0, s.drop ds.length)

def pHexDigit (c : Char) : Option Nat :=
  if c.isDigit then some (c.toNat - '0'.toNat)
  else if 'a' ≤ c ∧ c ≤ 'f' then some (c.toNat - 'a'.toNat + 10)
  else if 'A' ≤ c ∧ c ≤ 'F' then some (c.toNat - 'A'.toNat + 10)
  else none

def pHex (s : List Char) (n : Nat) : Option (Nat × List Char) :=
  match n with
  | 0 => some (0, s)
  | m + 1 =>
    match s with
    | [] => none
    | c :: rest =>
      match pHexDigit c with
      | none => none
      | some d =>
        match pHex rest m with
        | none => none
        | some (v, rest2) => some (d * 16 ^ m + v, rest2)

/-- An escape appearing inside a character class. -/
def pClsEsc (c : Char) (rest : List Char) : Option (CItem × List Char) :=
  match c with
  | 'd' => some (.dcls, rest)
  | 'D' => some (.ndcls, rest)
  | 's' => some (.scls, rest)
  | 'S' => some (.nscls, rest)
  | 'w' => some (.wcls, rest)
  | 'W' => some (.nwcls, rest)
  | 'x' =>
    match pHex rest 2 with
    | some (v, r2) => some (.lit (Char.ofNat v), r2)
    | none => none
  | 'u' =>
    match pHex rest 4 with
    | some (v, r2) => some (.lit (Char.ofNat v), r2)
    | none => none
  | _ => some (.lit c, rest)

/-- Parse the items of a character class after `[` (and after a possible
`^`), including ranges, until the closing `]`. -/
def pClsItems (fuel : Nat) (s : List Char) (acc : List CItem) :
    Option (List CItem × List Char) :=
  match fuel with
  | 0 => none
  | fuel + 1 =>
    match s with
    | [] => none
    | ']' :: rest => some (acc.reverse, rest)
    | '\\' :: c :: rest =>
      match pClsEsc c rest with
      | none => none
      | some (it, rest2) =>
        -- a range may only start from a literal item
        match it, rest2 with
        | .lit lo, '-' :: d :: rest3 =>
          if d = ']' then pClsItems fuel rest2 (it :: acc)
          else if d = '\\' then
            match rest3 with
            | e :: rest4 =>
              match pClsEsc e rest4 with
              | some (.lit hi, rest5) => pClsItems fuel rest5 (.range lo hi :: acc)
              | _ => none
            | [] => none
          else pClsItems fuel rest3 (.range lo d :: acc)
        | _, _ => pClsItems fuel rest2 (it :: acc)
    | c :: '-' :: d :: rest =>
      if d = ']' then pClsItems fuel ('-' :: d :: rest) (.lit c :: acc)
      else if d = '\\' then
        match rest with
        | e :: rest2 =>
          match pClsEsc e rest2 with
          | some (.lit hi, rest3) => pClsItems fuel rest3 (.range c hi :: acc)
          | _ => none
        | [] => none
      else pClsItems fuel rest (.range c d :: acc)
    | c :: rest => pClsItems fuel rest (.lit c :: acc)

/-- Unroll `r{lo,hi}` / `r{lo,}` into the core AST. -/
def unrollRep (r : RE) (lo : Nat) (hi : Option Nat) (lzy : Bool) : RE :=
  let mand := (List.replicate lo r).foldr RE.cat RE.eps
  match hi with
  | none => RE.cat mand (RE.star lzy r)
  | some h =>
    let opts := (List.replicate (h - lo) (RE.opt lzy r)).foldr RE.cat RE.eps
    RE.cat mand opts

/-- Recursive-descent level selector (`alt > seq > quant > atom`). -/
inductive PMode where
  | alt
  | seq
  | quant
  | atom

/-- The pattern parser, one fuel-indexed function so that it reduces
definitionally: alternation level (`seq ('|' seq)*`), sequence level (a run
of quantified atoms stopping at `|`, `)` or the end), an atom with an
optional `*`, `+`, `?`, `{m,n}` quantifier (each possibly lazy), and atoms
(anchors, `.`, classes, escapes, groups, literals). -/
def pRE : Nat → PMode → List Char → Nat → Option (RE × List Char × Nat)
  | 0, _, _, _ => none
  | fuel + 1, .alt, s, g =>
    match pRE fuel .seq s g with
    | none => none
    | some (r, s1, g1) =>
      match s1 with
      | '|' :: rest =>
        match pRE fuel .alt rest g1 with
        | none => none
        | some (r2, s2, g2) => some (.alt r r2, s2, g2)
      | _ => some (r, s1, g1)
  | fuel + 1, .seq, s, g =>
    match s with
    | [] => some (.eps, s, g)
    | '|' :: _ => some (.eps, s, g)
    | ')' :: _ => some (.eps, s, g)
    | _ =>
      match pRE fuel .quant s g with
      | none => none
      | some (r, s1, g1) =>
        match pRE fuel .seq s1 g1 with
        | none => none
        | some (r2, s2, g2) => some (.cat r r2, s2, g2)
  | fuel + 1, .quant, s, g =>
    match pRE fuel .atom s g with
    | none => none
    | some (r, s1, g1) =>
      match s1 with
      | '*' :: '?' :: rest => some (.star true r, rest, g1)
      | '*' :: rest => some (.star false r, rest, g1)
      | '+' :: '?' :: rest => some (.cat r (.star true r), rest, g1)
      | '+' :: rest => some (.cat r (.star false r), rest, g1)
      | '?' :: '?' :: rest => some (.opt true r, rest, g1)
      | '?' :: rest => some (.opt false r, rest, g1)
      | '\x7b' :: rest =>
        -- `{m}`, `{m,}`, `{m,n}`; a brace not of this shape is a literal,
        -- which does not occur in the library's patterns after an atom
        match pNum rest with
        | some (lo, ',' :: '\x7d' :: rest2) => some (unrollRep r lo none false, rest2, g1)
        | some (lo, ',' :: rest2) =>
          match pNum rest2 with
          | some (hi, '\x7d' :: rest3) => some (unrollRep r lo (some hi) false, rest3, g1)
          | _ => none
        | some (lo, '\x7d' :: rest2) => some (unrollRep r lo (some lo) false, rest2, g1)
        | _ => none
      | _ => some (r, s1, g1)
  | fuel + 1, .atom, s, g =>
    match s with
    | [] => none
    | '^' :: rest => some (.bol, rest, g)
    | '$' :: rest => some (.eol, rest, g)
    | '.' :: rest => some (.test .dot, rest, g)
    | '[' :: '^' :: rest =>
      match pClsItems (rest.length + 1) rest [] with
      | none => none
      | some (items, rest2) => some (.test (.cls true items), rest2, g)
    | '[' :: rest =>
      match pClsItems (rest.length + 1) rest [] with
      | none => none
      | some (items, rest2) => some (.test (.cls false items), rest2, g)
    | '\\' :: 'b' :: rest => some (.wordB, rest, g)
    | '\\' :: c :: rest =>
      match pClsEsc c rest with
      | none => none
      | some (it, rest2) => some (.test (.cls false [it]), rest2, g)
    | '(' :: '?' :: ':' :: rest =>
      match pRE fuel .alt rest g with
      | some (r, ')' :: rest2, g1) => some (r, rest2, g1)
      | _ => none
    | '(' :: rest =>
      match pRE fuel .alt rest (g + 1) with
      | some (r, ')' :: rest2, g1) => some (.group g r, rest2, g1)
      | _ => none
    | c :: rest => some (.test (.cls false [.lit c]), rest, g)

/-- A compiled regex: AST, `i` flag, number of capturing groups. -/
structure Regex where
  pat : RE
  icase : Bool
  groups : Nat
  deriving Repr

/-- Compile a pattern string; an unparsable pattern yields a regex that can
never match (group 1 onward would then be `none`, which would make every
concrete evaluation in this file visibly fail). -/
def reOf (p : String) (ic : Bool := false) : Regex :=
  let cs := p.data
  match pRE (4 * cs.length + 64) .alt cs 1 with
  | some (r, [], g) => ⟨r, ic, g - 1⟩
  | _ => ⟨.test (.cls false []), ic, 0⟩

/-! ## Regex dialect: backtracking matcher -/

/-- Capture records `(groupIdx, startPos, stopPos)`, most recent first. -/
abbrev Caps := List (Nat × Nat × Nat)

/-- The backtracking matcher in continuation-passing style, with fuel for
termination.  The `star` cases refuse an empty-width iteration, as JS does. -/
def reMatch (ic : Bool) (cs : List Char) :
    Nat → RE → Nat → Caps → (Nat → Caps → Option (Nat × Caps)) →
    Option (Nat × Caps)
  | 0, _, _, _, _ => none
  | fuel + 1, r, pos, caps, k =>
    match r with
    | .eps => k pos caps
    | .test t =>
      match cs.get? pos with
      | some c => if ctestMatch ic t c then k (pos + 1) caps else none
      | none => none
    | .cat a b =>
      reMatch ic cs fuel a pos caps (fun p c => reMatch ic cs fuel b p c k)
    | .alt a b =>
      (reMatch ic cs fuel a pos caps k) <|> (reMatch ic cs fuel b pos caps k)
    | .opt lzy a =>
      if lzy then (k pos caps) <|> (reMatch ic cs fuel a pos caps k)
      else (reMatch ic cs fuel a pos caps k) <|> (k pos caps)
    | .star lzy a =>
      if lzy then
        (k pos caps) <|>
          (reMatch ic cs fuel a pos caps (fun p c =>
            if p = pos then none else reMatch ic cs fuel (.star lzy a) p c k))
      else
        (reMatch ic cs fuel a pos caps (fun p c =>
          if p = pos then k p c else reMatch ic cs fuel (.star lzy a) p c k)) <|>
          (k pos caps)
    | .group i a =>
      reMatch ic cs fuel a pos caps (fun p c => k p ((i, pos, p) :: c))
    | .bol => if pos = 0 then k pos caps else none
    | .eol => if pos = cs.length then k pos caps else none
    | .wordB =>
      let w := fun (oc : Option Char) => match oc with
        | some c => isJsWord c
        | none => false
      let prev := if pos = 0 then none else cs.get? (pos - 1)
      if w prev != w (cs.get? pos) then k pos caps else none

/-- The result of a successful `exec`. -/
structure MRes where
  idx : Nat
  stop : Nat
  caps : Caps
  input : List Char

/-- Try to match starting exactly at `pos`. -/
def execAt (r : Regex) (cs : List Char) (pos : Nat) : Option MRes :=
  match reMatch r.icase cs (8 * (cs.length + 64)) r.pat pos []
      (fun p c => some (p, c)) with
  | some (stop, caps) => some ⟨pos, stop, caps, cs⟩
  | none => none

/-- JS `RegExp.prototype.exec`: the leftmost position admitting a match wins. -/
def execRe (r : Regex) (s : String) : Option MRes :=
  let cs := s.data
  firstSome (fun pos => execAt r cs pos) (List.range (cs.length + 1))

/-- Captured group `i` (`0` is the whole match); `none` models `undefined`. -/
def MRes.grp (m : MRes) (i : Nat) : Option String :=
  if i = 0 then
    some (String.mk ((m.input.drop m.idx).take (m.stop - m.idx)))
  else
    match m.caps.find? (fun t => t.1 = i) with
    | some (_, a, b) => some (String.mk ((m.input.drop a).take (b - a)))
    | none => none

/-- JS `RegExp.prototype.test`-style view. -/
def reTest (r : Regex) (s : String) : Bool :=
  (execRe r s).isSome

/-- JS `String.prototype.replace` with a string pattern (first occurrence
only; the replacement strings used here contain no `$` patterns). -/
def jsReplaceFirst (s pat repl : String) : String :=
  match jsIndexOf s pat with
  | Int.negSucc _ => s
  | Int.ofNat i =>
    if (i : Int) = -1 then s
    else String.mk ((s.data.take i) ++ repl.data ++ (s.data.drop (i + pat.length)))

/-- JS `.replace(/\s+/g, "\\s+")`: every maximal whitespace run becomes the
three characters `\s+`. -/
def replaceWsRuns (s : String) : String :=
  let rec go : List Char → Bool → List Char
    | [], _ => []
    | c :: rest, inRun =>
      if isJsSpace c then
        if inRun then go rest true
        else '\\' :: 's' :: '+' :: go rest true
      else c :: go rest false
  String.mk (go s.data false)

/-- JS `.replace(/^\s*/, "")`. -/
def trimLeadingWs (s : String) : String :=
  String.mk (s.data.dropWhile isJsSpace)

/-- JS `.replace(/#.*$/, "")` on a URL without newlines: cut from the first
`#`. -/
def stripHash (s : String) : String :=
  String.mk (s.data.takeWhile (fun c => c ≠ '#'))

/-- JS `.replace(/;$/, ";?")`. -/
def optionalFinalSemi (s : String) : String :=
  match s.data.reverse with
  | ';' :: rest => String.mk (rest.reverse ++ [';', '?'])
  | _ => s

/-! ## Configuration (src/src/config.js, default options) -/

namespace Config

def remoteFetching : Bool := false
def collectWindowErrors : Bool := true
def collectSourceErrors : Bool := true
def linesOfContext : Int := 11
def debug : Bool := false
def reportFuncName : String := "ErrorWatch.report"

end Config

/-! ## Data model (computeStackTrace.js) -/

def UNKNOWN_FUNCTION : String := "?"

/-- A StackFrame.  `context`, when present, is a JS array whose entries can
themselves be `undefined` (`lines[line + 1]` past the end), hence the inner
`Option`. -/
structure Element where
  url : Option String
  func : Option String
  args : List String
  line : Option Int
  column : Option Int
  context : Option (List (Option String))
  deriving DecidableEq, Repr

/-- A StackTrace.  `stack = none` models the absence of the `stack` property
(the `mode = "failed"` result); `partialFlag`/`incomplete` model the
`partial`/`incomplete` properties, `none` standing for "never assigned". -/
structure StackTrace where
  mode : String
  name : Option String
  message : Option String
  stack : Option (List Element)
  partialFlag : Option Bool
  incomplete : Option Bool
  deriving DecidableEq, Repr

/-- The frame sequence of a trace (empty when the `stack` property is
absent). -/
def StackTrace.frames (t : StackTrace) : List Element :=
  t.stack.getD []

/-- A raised error value, with the environment-specific fields the library
reads.  Absent fields are `none`. -/
structure JsError where
  name : Option String := none
  message : Option String := none
  stack : Option String := none
  stacktrace : Option String := none
  columnNumber : Option Int := none
  sourceURL : Option String := none
  fileName : Option String := none
  line : Option Int := none
  lineNumber : Option Int := none
  description : Option String := none
  deriving DecidableEq, Repr

/-- A `<script>` element as far as the library reads it. -/
structure Script where
  src : Option String
  innerText : String
  deriving DecidableEq, Repr

/-- A function object on the live caller chain: its `name`, its
serialization (`'' + func`), whether it is the `computeStackTrace` function
itself, and its `__name__` marker. -/
structure FnObj where
  name : Option String
  src : String
  isComputeStackTrace : Bool
  dunder : Option String
  deriving DecidableEq, Repr

/-- The browser environment the module runs against: the (process-wide)
source cache contents, `window.document.domain` (`none` when reading it
throws), `window.location.href`, whether `window.document` exists, the
page's scripts, the live caller chain visible from
`computeStackTraceByWalkingCallerChain.caller` (`none` when accessing
`.caller` throws, as it does in strict mode), and the XHR text fetcher
(unreachable while `remoteFetching` is off). -/
structure Env where
  cache : List (String × List String) := []
  domain : Option String := none
  locationHref : String := ""
  hasDocument : Bool := false
  scripts : List Script := []
  callerChain : Option (List FnObj) := none
  fetch : String → String := fun _ => ""

/-! ## The regular expressions, verbatim from the source -/

def chromeRe : Regex :=
  reOf ("^\\s*at (.*?) ?\\(((?:file|https?|blob|chrome-extension|native|eval|webpack|<anonymous>|\\/).*?)(?::(\\d+))?(?::(\\d+))?\\)?\\s*$") true

def geckoRe : Regex :=
  reOf ("^\\s*(.*?)(?:\\((.*?)\\))?(?:^|@)((?:file|https?|blob|chrome|webpack|resource|\\[native).*?|[^@]*bundle)(?::(\\d+))?(?::(\\d+))?\\s*$") true

def winjsRe : Regex :=
  reOf ("^\\s*at (?:((?:\\[object object\\])?.+) )?\\(?((?:file|ms-appx|https?|webpack|blob):.*?):(\\d+)(?::(\\d+))?\\)?\\s*$") true

def geckoEvalRe : Regex :=
  reOf ("(\\S+) line (\\d+)(?: > eval line \\d+)* > eval") true

def chromeEvalRe : Regex :=
  reOf ("\\((\\S*)(?::(\\d+))(?::(\\d+))\\)")

def isUndefinedRe : Regex :=
  reOf ("^(.*) is undefined$")

def opera10Regex : Regex :=
  reOf (" line (\\d+).*script (?:in )?(\\S+)(?:: in function (\\S+))?$") true

def opera11Regex : Regex :=
  reOf (" line (\\d+), column (\\d+)\\s*(?:in (?:<anonymous function: ([^>]+)>|([^\\)]+))\\((.*)\\))? in (.*):\\s*$") true

def lineRE1 : Regex :=
  reOf ("^\\s*Line (\\d+) of linked script ((?:file|https?|blob)\\S+)(?:: in function (\\S+))?\\s*$") true

def lineRE2 : Regex :=
  reOf ("^\\s*Line (\\d+) of inline#(\\d+) script in ((?:file|https?|blob)\\S+)(?:: in function (\\S+))?\\s*$") true

def lineRE3 : Regex :=
  reOf ("^\\s*Line (\\d+) of function script\\s*$") true

def quotedRefRe : Regex :=
  reOf (" \x27([^\x27]+)\x27 ")

def functionNameRe : Regex :=
  reOf ("function\\s+([_$a-zA-Z\\xA0-\\uFFFF][_$a-zA-Z0-9\\xA0-\\uFFFF]*)?\\s*\\(") true

def reFunctionArgNames : Regex :=
  reOf ("function ([^(]*)\\(([^)]*)\\)")

def reGuessFunction : Regex :=
  reOf ("[\x27\"]?([0-9A-Za-z$_]+)[\x27\"]?\\s*[:=]\\s*(function|eval|new Function)")

def domainRe : Regex :=
  reOf ("(.*)\\:\\/\\/([^:\\/]+)([:\\d]*)\\/\x7b0,1\x7d([\\s\\S]*)")

def codeRE : Regex :=
  reOf ("^function(?:\\s+([\\w$]+))?\\s*\\(([\\w\\s,]*)\\)\\s*\\\x7b\\s*(\\S[\\s\\S]*\\S)\\s*\\\x7d\\s*$")

def eventRE : Regex :=
  reOf ("^function on([\\w$]+)\\s*\\(event\\)\\s*\\\x7b\\s*(\\S[\\s\\S]*\\S)\\s*\\\x7d\\s*$")

/-! ## Source cache (loadSource / getSource) -/

/-- `loadSource`: only attempts the XHR when `remoteFetching` is on; any
failure yields the empty string. -/
def loadSource (env : Env) (url : String) : String :=
  if ¬ Config.remoteFetching then ""
  else env.fetch url

/-- `getSource`: memoized, and only fetched when the URL's parsed domain
equals the document domain.  This is the value the call returns; the cache
mutation it performs is `getSourceCacheAfter` below. -/
def getSource (env : Env) (url : Option String) : List String :=
  match url with
  | none => []                     -- typeof url !== 'string'
  | some u =>
    match env.cache.find? (fun e => e.1 = u) with
    | some e => e.2
    | none =>
      let domain := env.domain.getD ""    -- try { window.document.domain } catch {}
      let source :=
        match execRe domainRe u with
        | some m => if m.grp 2 = some domain then loadSource env u else ""
        | none => ""
      if source ≠ "" then jsSplit source '\n' else []

/-- The source cache contents after a `getSource` call. -/
def getSourceCacheAfter (env : Env) (url : Option String) : List (String × List String) :=
  match url with
  | none => env.cache
  | some u =>
    match env.cache.find? (fun e => e.1 = u) with
    | some _ => env.cache
    | none =>
      let domain := env.domain.getD ""
      let source :=
        match execRe domainRe u with
        | some m => if m.grp 2 = some domain then loadSource env u else ""
        | none => ""
      (u, if source ≠ "" then jsSplit source '\n' else []) :: env.cache

/-! ## guessFunctionName / gatherContext -/

/-- The body of `guessFunctionName`'s backward walk (up to `maxLines = 10`
iterations; note `source[lineNo - i] + line` string-coerces an undefined
read, and the original's `_isUndefined(line)` guard is always true). -/
def guessLoop (source : List String) (lineNo : Int) : Nat → Nat → String → String
  | 0, _, _ => UNKNOWN_FUNCTION
  | fuel + 1, i, line =>
    let line2 := jsStr (jsAt source (lineNo - i)) ++ line
    match execRe reGuessFunction line2 with
    | some m => jsStr (m.grp 1)
    | none =>
      match execRe reFunctionArgNames line2 with
      | some m => jsStr (m.grp 1)
      | none => guessLoop source lineNo fuel (i + 1) line2

/-- `guessFunctionName`. -/
def guessFunctionName (env : Env) (url : Option String) (lineNo : Int) : String :=
  let source := getSource env url
  if source.length = 0 then UNKNOWN_FUNCTION
  else guessLoop source lineNo 10 0 ""

/-- `gatherContext`. -/
def gatherContext (env : Env) (url : Option String) (line : Int) : Option (List String) :=
  let source := getSource env url
  if source.length = 0 then none
  else
    -- linesBefore & linesAfter are inclusive with the offending line
    let linesBefore : Int := Config.linesOfContext / 2
    let linesAfter : Int := linesBefore + (Config.linesOfContext % 2)
    let start : Int := max 0 (line - linesBefore - 1)
    let stop : Int := min (source.length : Int) (line + linesAfter - 1)
    let context := (source.drop start.toNat).take (stop - start).toNat
    if context.length > 0 then some context else none

/-! ## escapeRegExp and source searching -/

/-- `escapeRegExp`. -/
def escapeRegExp (text : String) : String :=
  String.mk (text.data.flatMap (fun c =>
    if c ∈ ['-', '[', ']', '\x7b', '\x7d', '(', ')', '*', '+', '?', '.', ',',
        '\\', '^', '$', '|', '#'] then ['\\', c] else [c]))

/-- `escapeCodeAsRegExpForMatchingInsideHTML` (note the single-occurrence
string replaces, faithfully kept: the `&` replace can hit an `&lt;` inserted
by the `<` replace). -/
def escapeCodeAsRegExpForMatchingInsideHTML (body : String) : String :=
  replaceWsRuns
    (jsReplaceFirst
      (jsReplaceFirst
        (jsReplaceFirst
          (jsReplaceFirst (escapeRegExp body) ("<") ("(?:<|&lt;)"))
          (">") ("(?:>|&gt;)"))
        ("&") ("(?:&|&amp;)"))
      ("\"") ("(?:\"|&quot;)"))

/-- The url/line/column record produced by the source searches. -/
structure SrcLoc where
  url : String
  line : Int
  column : Int
  deriving DecidableEq, Repr

/-- `findSourceInUrls`. -/
def findSourceInUrls (env : Env) (re : Regex) (urls : List String) : Option SrcLoc :=
  firstSome (fun u =>
    let source := getSource env (some u)
    if source.length ≠ 0 then
      let joined := joinSep '\n' source
      match execRe re joined with
      | some m =>
        let pre := String.mk (joined.data.take m.idx)
        let lastNl := -- joined.lastIndexOf('\n', m.idx)
          match (List.range (m.idx + 1)).reverse.find?
              (fun i => joined.data.get? i = some '\n') with
          | some i => (i : Int)
          | none => -1
        some ⟨u, ((jsSplit pre '\n').length : Int), (m.idx : Int) - lastNl - 1⟩
      | none => none
    else none) urls

/-- `findSourceInLine`. -/
def findSourceInLine (env : Env) (fragment : String) (url : Option String)
    (line : Int) : Option Int :=
  let source := getSource env url
  let re := reOf ("\\b" ++ escapeRegExp fragment ++ "\\b")
  let line := line - 1
  if (source.length : Int) > line then
    match execRe re (jsStr (jsAt source line)) with
    | some m => some (m.idx : Int)
    | none => none
  else none

/-- `findSourceByFunctionBody`. -/
def findSourceByFunctionBody (env : Env) (func : FnObj) : Option SrcLoc :=
  if ¬ env.hasDocument then none   -- _isUndefined(window && window.document)
  else
    let urls := env.locationHref ::
      (env.scripts.filter (fun s => truthyS s.src)).map (fun s => jsStr s.src)
    let code := func.src
    let re :=
      match execRe codeRE code with
      | none => reOf (replaceWsRuns (escapeRegExp code))
      | some parts =>
        let name := if truthyS (parts.grp 1) then "\\s+" ++ jsStr (parts.grp 1) else ""
        let args := joinStr ("\\s*,\\s*") (jsSplit (jsStr (parts.grp 2)) ',')
        let body := optionalFinalSemi (escapeRegExp (jsStr (parts.grp 3)))
        reOf ("function" ++ name ++ "\\s*\\(\\s*" ++ args ++ "\\s*\\)\\s*\x7b\\s*" ++
          body ++ "\\s*\x7d")
    match findSourceInUrls env re urls with
    | some result => some result
    | none =>
      -- look for an old-school event handler function
      match execRe eventRE code with
      | none => none
      | some parts =>
        let event := jsStr (parts.grp 1)
        let body := escapeCodeAsRegExpForMatchingInsideHTML (jsStr (parts.grp 2))
        let re2 := reOf ("on" ++ event ++ "=[\\\x27\"]\\s*" ++ body ++ "\\s*[\\\x27\"]") true
        -- the original passes urls[0] (a string) where an array is expected,
        -- so findSourceInUrls iterates over its single characters
        match findSourceInUrls env re2 ((urls.headD "").data.map (fun c => String.mk [c])) with
        | some result => some result
        | none =>
          let re3 := reOf body
          findSourceInUrls env re3 urls

/-! ## Strategy: computeStackTraceFromStackProp -/

/-- Parse one line of an `ex.stack` string (chrome, then winjs, then gecko
dialect; a non-matching line is skipped).  Throws on the original's
`stack[0].column` assignment in the gecko branch: at `i === 0` nothing has
been pushed yet, so `stack[0]` is `undefined` there. -/
def parseStackLine (ex : JsError) (i : Nat) (ln : String) :
    Except JsExn (Option Element) :=
  match execRe chromeRe ln with
  | some parts =>
    let p2 := parts.grp 2
    let isNative := truthyS p2 ∧ jsIndexOf (jsStr p2) ("native") = 0
    let isEval := truthyS p2 ∧ jsIndexOf (jsStr p2) ("eval") = 0
    let (q2, q3, q4) :=
      if isEval then
        match execRe chromeEvalRe (jsStr p2) with
        -- throw out eval line/column and use top-most line/column number
        | some sm => (sm.grp 1, sm.grp 2, sm.grp 3)
        | none => (p2, parts.grp 3, parts.grp 4)
      else (p2, parts.grp 3, parts.grp 4)
    .ok (some
      { url := if ¬ isNative then q2 else none
        func := jsOrS (parts.grp 1) (some UNKNOWN_FUNCTION)
        args := if isNative then [jsStr p2] else []
        line := if truthyS q3 then some (jsToNum (jsStr q3)) else none
        column := if truthyS q4 then some (jsToNum (jsStr q4)) else none
        context := none })
  | none =>
    match execRe winjsRe ln with
    | some parts =>
      .ok (some
        { url := parts.grp 2
          func := jsOrS (parts.grp 1) (some UNKNOWN_FUNCTION)
          args := []
          line := some (jsToNum (jsStr (parts.grp 3)))
          column := if truthyS (parts.grp 4) then some (jsToNum (jsStr (parts.grp 4))) else none
          context := none })
    | none =>
      match execRe geckoRe ln with
      | some parts =>
        let p3 := parts.grp 3
        let isEval := truthyS p3 ∧ jsIndexOf (jsStr p3) (" > eval") > -1
        match (if isEval then execRe geckoEvalRe (jsStr p3) else none) with
        | some sm =>
          -- throw out eval line/column and use top-most line number
          .ok (some
            { url := sm.grp 1
              func := jsOrS (parts.grp 1) (some UNKNOWN_FUNCTION)
              args := if truthyS (parts.grp 2) then jsSplit (jsStr (parts.grp 2)) ',' else []
              line := if truthyS (sm.grp 2) then some (jsToNum (jsStr (sm.grp 2))) else none
              column := none
              context := none })
        | none =>
          if i = 0 ∧ ¬ truthyS (parts.grp 5) ∧ ex.columnNumber ≠ none then
            -- `stack[0].column = ex.columnNumber + 1` with stack still empty
            .error .typeError
          else
            .ok (some
              { url := p3
                func := jsOrS (parts.grp 1) (some UNKNOWN_FUNCTION)
                args := if truthyS (parts.grp 2) then jsSplit (jsStr (parts.grp 2)) ',' else []
                line := if truthyS (parts.grp 4) then some (jsToNum (jsStr (parts.grp 4))) else none
                column := if truthyS (parts.grp 5) then some (jsToNum (jsStr (parts.grp 5))) else none
                context := none })
      | none => .ok none   -- continue

/-- The per-line postprocessing shared by the loop body: anonymous-name
guessing and context gathering. -/
def finishStackElem (env : Env) (element : Element) : Element :=
  let element :=
    if ¬ truthyS element.func ∧ truthyI element.line then
      { element with func := some (guessFunctionName env element.url (element.line.getD 0)) }
    else element
  { element with
    context :=
      if truthyI element.line then
        (gatherContext env element.url (element.line.getD 0)).map (fun l => l.map some)
      else none }

def stackPropLoop (env : Env) (ex : JsError) :
    List String → Nat → List Element → Except JsExn (List Element)
  | [], _, acc => .ok acc.reverse
  | ln :: rest, i, acc => do
    match ← parseStackLine ex i ln with
    | none => stackPropLoop env ex rest (i + 1) acc
    | some element =>
      stackPropLoop env ex rest (i + 1) (finishStackElem env element :: acc)

/-- `computeStackTraceFromStackProp` (Chrome and Gecko use the `stack`
property). -/
def computeStackTraceFromStackProp (env : Env) (ex : JsError) :
    Except JsExn (Option StackTrace) :=
  if ¬ truthyS ex.stack then .ok none
  else
    let lines := jsSplit (jsStr ex.stack) '\n'
    let reference := execRe isUndefinedRe (jsStr ex.message)
    match stackPropLoop env ex lines 0 [] with
    | .error e => .error e
    | .ok stack =>
      if stack.length = 0 then .ok none
      else
        let stack :=
          match stack with
          | f0 :: rest =>
            if truthyI f0.line ∧ ¬ truthyI f0.column ∧ reference.isSome then
              { f0 with
                column := match reference with
                  | some m => findSourceInLine env (jsStr (m.grp 1)) f0.url (f0.line.getD 0)
                  | none => none } :: rest
            else f0 :: rest
          | [] => []
        .ok (some
          { mode := "stack", name := ex.name, message := ex.message,
            stack := some stack, partialFlag := none, incomplete := none })

/-! ## Strategy: computeStackTraceFromStacktraceProp -/

/-- One step of the Opera `stacktrace` loop (`line += 2`). -/
def stacktracePropElem (env : Env) (lines : List String) (idx : Nat) : Option Element :=
  let element : Option Element :=
    match execRe opera10Regex (jsStr (jsAt lines idx)) with
    | some parts =>
      some
        { url := parts.grp 2
          line := some (jsToNum (jsStr (parts.grp 1)))
          column := none
          func := parts.grp 3
          args := []
          context := none }
    | none =>
      match execRe opera11Regex (jsStr (jsAt lines idx)) with
      | some parts =>
        some
          { url := parts.grp 6
            line := some (jsToNum (jsStr (parts.grp 1)))
            column := some (jsToNum (jsStr (parts.grp 2)))
            func := jsOrS (parts.grp 3) (parts.grp 4)
            args := if truthyS (parts.grp 5) then jsSplit (jsStr (parts.grp 5)) ',' else []
            context := none }
      | none => none
  match element with
  | none => none
  | some element =>
    let element :=
      if ¬ truthyS element.func ∧ truthyI element.line then
        { element with func := some (guessFunctionName env element.url (element.line.getD 0)) }
      else element
    let element :=
      if truthyI element.line then
        { element with
          context := (gatherContext env element.url (element.line.getD 0)).map (fun l => l.map some) }
      else element
    let element :=
      if element.context = none then
        { element with context := some [jsAt lines (idx + 1)] }
      else element
    some element

def stacktracePropLoop (env : Env) (lines : List String) :
    Nat → Nat → List Element → List Element
  | 0, _, acc => acc.reverse
  | fuel + 1, idx, acc =>
    if idx < lines.length then
      match stacktracePropElem env lines idx with
      | some e => stacktracePropLoop env lines fuel (idx + 2) (e :: acc)
      | none => stacktracePropLoop env lines fuel (idx + 2) acc
    else acc.reverse

/-- `computeStackTraceFromStacktraceProp` (Opera 10+): the `stacktrace`
property is read and stored before anything else is done to the exception. -/
def computeStackTraceFromStacktraceProp (env : Env) (ex : JsError) :
    Except JsExn (Option StackTrace) :=
  let stacktrace := ex.stacktrace
  if ¬ truthyS stacktrace then .ok none
  else
    let lines := jsSplit (jsStr stacktrace) '\n'
    let stack := stacktracePropLoop env lines (lines.length + 1) 0 []
    if stack.length = 0 then .ok none
    else .ok (some
      { mode := "stacktrace", name := ex.name, message := ex.message,
        stack := some stack, partialFlag := none, incomplete := none })

/-! ## Strategy: computeStackTraceFromOperaMultiLineMessage -/

/-- One step of the Opera multi-line-message loop (`line += 2` from 2).
Throws where the original would dereference an undefined `lines[line + 1]`. -/
def multilineElem (env : Env) (inlineScriptBlocks : List Script)
    (locationHref : String) (lines : List String) (idx : Nat) :
    Except JsExn (Option Element) := do
  let item : Option Element ←
    match execRe lineRE1 (jsStr (jsAt lines idx)) with
    | some parts =>
      pure (some
        { url := parts.grp 2, func := parts.grp 3, args := [],
          line := some (jsToNum (jsStr (parts.grp 1))), column := none, context := none })
    | none =>
      match execRe lineRE2 (jsStr (jsAt lines idx)) with
      | some parts => do
        let item : Element :=
          { url := parts.grp 3, func := parts.grp 4, args := [],
            line := some (jsToNum (jsStr (parts.grp 1))), column := none, context := none }
        let relativeLine := jsToNum (jsStr (parts.grp 1))
        let scriptIdx := jsToNum (jsStr (parts.grp 2)) - 1
        let script := if scriptIdx < 0 then none
          else inlineScriptBlocks.get? scriptIdx.toNat
        match script with
        | none => pure (some item)
        | some script =>
          let source := getSource env item.url
          let joined := joinSep '\n' source
          let pos := jsIndexOf joined script.innerText
          if pos ≥ 0 then
            pure (some { item with
              line := some (relativeLine +
                ((jsSplit (String.mk (joined.data.take pos.toNat)) '\n').length : Int)) })
          else pure (some item)
      | none =>
        match execRe lineRE3 (jsStr (jsAt lines idx)) with
        | some parts => do
          let url := stripHash locationHref
          match jsAt lines (idx + 1) with
          | none => throw .typeError   -- escapeRegExp(undefined).replace
          | some excerpt =>
            let re := reOf (escapeCodeAsRegExpForMatchingInsideHTML excerpt)
            let src := findSourceInUrls env re [url]
            pure (some
              { url := some url, func := some "", args := [],
                line := match src with
                  | some s => some s.line
                  | none => some (jsToNum (jsStr (parts.grp 1)))
                column := none, context := none })
        | none => pure none
  match item with
  | none => return none
  | some item =>
    let item :=
      if ¬ truthyS item.func then
        { item with func := some (guessFunctionName env item.url (item.line.getD 0)) }
      else item
    let context := gatherContext env item.url (item.line.getD 0)
    match context with
    | some ctx =>
      let midline := jsStr (ctx.get? (ctx.length / 2))
      match jsAt lines (idx + 1) with
      | none => throw .typeError   -- lines[line + 1].replace on undefined
      | some excerpt =>
        if trimLeadingWs midline = trimLeadingWs excerpt then
          return some { item with context := some (ctx.map some) }
        else
          return some { item with context := some [jsAt lines (idx + 1)] }
    | none =>
      return some { item with context := some [jsAt lines (idx + 1)] }

def multilineLoop (env : Env) (inlineScriptBlocks : List Script)
    (locationHref : String) (lines : List String) :
    Nat → Nat → List Element → Except JsExn (List Element)
  | 0, _, acc => .ok acc.reverse
  | fuel + 1, idx, acc => do
    if idx < lines.length then
      match ← multilineElem env inlineScriptBlocks locationHref lines idx with
      | some e => multilineLoop env inlineScriptBlocks locationHref lines fuel (idx + 2) (e :: acc)
      | none => multilineLoop env inlineScriptBlocks locationHref lines fuel (idx + 2) acc
    else return acc.reverse

/-- `computeStackTraceFromOperaMultiLineMessage` (Opera 9-): throws when
`ex.message` is undefined (`ex.message.split`). -/
def computeStackTraceFromOperaMultiLineMessage (env : Env) (ex : JsError) :
    Except JsExn (Option StackTrace) :=
  match ex.message with
  | none => .error .typeError
  | some msg =>
    let lines := jsSplit msg '\n'
    if lines.length < 4 then .ok none
    else
      -- `window && window.document && window.document.getElementsByTagName`
      let inlineScriptBlocks :=
        if env.hasDocument then env.scripts.filter (fun s => ¬ truthyS s.src) else []
      match multilineLoop env inlineScriptBlocks env.locationHref lines
          (lines.length + 1) 2 [] with
      | .error e => .error e
      | .ok stack =>
        if stack.length = 0 then .ok none
        else .ok (some
          { mode := "multiline", name := ex.name, message := jsAt lines 0,
            stack := some stack, partialFlag := none, incomplete := none })

/-! ## augmentStackTraceWithInitialElement -/

/-- `augmentStackTraceWithInitialElement`: returns the mutated trace and the
"was augmented" flag.  Throws where the original would read `.length` of an
absent `stack` property. -/
def augmentStackTraceWithInitialElement (env : Env) (stackInfo : StackTrace)
    (url : Option String) (lineNo : Option Int) (message : Option String) :
    Except JsExn (StackTrace × Bool) :=
  if truthyS url ∧ truthyI lineNo then
    let info := { stackInfo with incomplete := some false }
    let func := guessFunctionName env url (lineNo.getD 0)
    let context := gatherContext env url (lineNo.getD 0)
    let column : Option Int :=
      match execRe quotedRefRe (jsStr message) with
      | some m => findSourceInLine env (jsStr (m.grp 1)) url (lineNo.getD 0)
      | none => none
    match info.stack with
    | none => .error .typeError   -- stackInfo.stack.length with stack undefined
    | some frames =>
      let doInsert : StackTrace × Bool :=
        let initial : Element :=
          ⟨url, some func, [], lineNo, column, context.map (fun l => l.map some)⟩
        ({ info with stack := some (initial :: frames), partialFlag := some true }, true)
      match frames with
      | [] => .ok doInsert
      | f0 :: rest =>
        if f0.url = url then
          if f0.line = lineNo then
            .ok (info, false)   -- already in stack trace
          else if ¬ truthyI f0.line ∧ f0.func = some func then
            .ok ({ info with
              stack := some ({ f0 with
                line := lineNo,
                context := context.map (fun l => l.map some) } :: rest) }, false)
          else .ok doInsert
        else .ok doInsert
  else
    .ok ({ stackInfo with incomplete := some true }, false)

/-! ## Strategy: computeStackTraceByWalkingCallerChain -/

/-- One frame of the caller walk. -/
def callerItem (env : Env) (ex : JsError) (curr : FnObj) : Element :=
  let func1 : Option String :=
    if truthyS curr.name then curr.name
    else
      match execRe functionNameRe curr.src with
      | some m => m.grp 1
      | none => some UNKNOWN_FUNCTION
  -- `if (typeof item.func === 'undefined') item.func = parts.input.substring(0, indexOf('{'))`
  let func2 : Option String :=
    match func1 with
    | none => some (jsSubstring0 curr.src (jsIndexOf curr.src ("\x7b")))
    | some f => some f
  match findSourceByFunctionBody env curr with
  | some source =>
    let func3 :=
      if func2 = some UNKNOWN_FUNCTION then
        some (guessFunctionName env (some source.url) source.line)
      else func2
    let column :=
      match execRe quotedRefRe (jsStr (jsOrS ex.message ex.description)) with
      | some m => findSourceInLine env (jsStr (m.grp 1)) (some source.url) source.line
      | none => none
    ⟨some source.url, func3, [], some source.line, column, none⟩
  | none => ⟨none, func2, [], none, none, none⟩

/-- The caller-chain walk: marker functions are skipped, every visited item
is pushed, and a repeated serialized body halts the walk after its push. -/
def callerLoop (env : Env) (ex : JsError) :
    List FnObj → List String → List Element → List Element
  | [], _, acc => acc.reverse
  | curr :: rest, seen, acc =>
    if curr.isComputeStackTrace ∨ curr.dunder = some Config.reportFuncName then
      callerLoop env ex rest seen acc   -- continue
    else
      let item := callerItem env ex curr
      if seen.contains curr.src then (item :: acc).reverse   -- recursion guard
      else callerLoop env ex rest (curr.src :: seen) (item :: acc)

/-- `computeStackTraceByWalkingCallerChain`: throws when accessing the
`.caller` chain is impossible (strict mode). -/
def computeStackTraceByWalkingCallerChain (env : Env) (ex : JsError)
    (depth : Int) : Except JsExn StackTrace :=
  match env.callerChain with
  | none => .error .typeError
  | some chain =>
    let stack := callerLoop env ex chain [] []
    let stack := if truthyI (some depth) then stack.drop depth.toNat else stack
    let result : StackTrace :=
      { mode := "callers", name := ex.name, message := ex.message,
        stack := some stack, partialFlag := none, incomplete := none }
    match augmentStackTraceWithInitialElement env result
        (jsOrS ex.sourceURL ex.fileName) (jsOrI ex.line ex.lineNumber)
        (jsOrS ex.message ex.description) with
    | .error e => .error e
    | .ok r => .ok r.1

/-! ## Orchestration: computeStackTrace -/

/-- The degraded result when every strategy has failed. -/
def failedTrace (ex : JsError) : StackTrace :=
  { mode := "failed", name := ex.name, message := ex.message,
    stack := none, partialFlag := none, incomplete := none }

/-- `computeStackTrace`: Opera's `stacktrace` property first (reading
`stack` first would destroy it), then `stack`, then the multi-line message,
then the caller walk; a strategy's internal error is rethrown only when
`debug` is on, otherwise the next strategy is tried. -/
def computeStackTrace (env : Env) (ex : JsError) (depthArg : Option Int) :
    Except JsExn StackTrace :=
  let depth : Int := match depthArg with | none => 0 | some d => d
  let k4 : Except JsExn StackTrace :=
    match computeStackTraceByWalkingCallerChain env ex (depth + 1) with
    | .ok stack => .ok stack
    | .error e => if Config.debug then .error e else .ok (failedTrace ex)
  let k3 : Except JsExn StackTrace :=
    match computeStackTraceFromOperaMultiLineMessage env ex with
    | .ok (some stack) => .ok stack
    | .ok none => k4
    | .error e => if Config.debug then .error e else k4
  let k2 : Except JsExn StackTrace :=
    match computeStackTraceFromStackProp env ex with
    | .ok (some stack) => .ok stack
    | .ok none => k3
    | .error e => if Config.debug then .error e else k3
  match computeStackTraceFromStacktraceProp env ex with
  | .ok (some stack) => .ok stack
  | .ok none => k2
  | .error e => if Config.debug then .error e else k2

/-! ## Report protocol (src/src/report.js)

The module-level mutable state (`handlers`, `lastException`,
`lastExceptionStack`, plus the timers scheduled with `setTimeout`) is made
explicit in `RState`.  Error values are opaque and compared by reference, so
an error is modelled as an identity `Nat` paired with its `JsError`
contents.  A handler is a function from the dispatch arguments to `none`
(normal return) or `some e` (it threw `e`).  The `log` field is a ghost
transcript: one entry per `notifyHandlers` dispatch, recording the
arguments every handler received. -/

/-- The three arguments every subscribed handler receives:
`(stack, isWindowError, error)`. -/
abbrev NotifyArg := Option StackTrace × Bool × Option Nat

/-- A subscribed handler: `none` = returned normally, `some e` = threw. -/
abbrev Handler := NotifyArg → Option JsExn

/-- The dispatch loop of `notifyHandlers`: every handler is called in order
with the same argument; a throwing handler's exception is remembered
(overwriting any earlier one) and the loop continues.  Returns the list of
the individual handler outcomes alongside the exception variable's final
value. -/
def notifyLoop (arg : NotifyArg) :
    List Handler → Option JsExn → List (Option JsExn) × Option JsExn
  | [], exc => ([], exc)
  | h :: rest, exc =>
    let r := h arg
    let exc2 := match r with
      | some e => some e
      | none => exc
    let (rs, excF) := notifyLoop arg rest exc2
    (r :: rs, excF)

/-- `notifyHandlers`: returns the outcome transcript and the exception
re-raised after the loop, if any.  (With `collectWindowErrors = true` the
early-out guard is dead.) -/
def notifyHandlers (hs : List Handler) (arg : NotifyArg) :
    List (Option JsExn) × Option JsExn :=
  if arg.2.1 ∧ ¬ Config.collectWindowErrors then ([], none)
  else notifyLoop arg hs none

/-- The report module's mutable state plus the pending-timer queue and the
ghost dispatch log. -/
structure RState where
  lastException : Option Nat
  lastExceptionStack : Option StackTrace
  timers : List (Nat × Int)       -- (captured error identity, delay ms)
  log : List NotifyArg
  deriving Inhabited

/-- The initial (idle) state. -/
def RState.idle : RState := ⟨none, none, [], []⟩

/-- `processLastException`: copies the two slots into locals, clears both
slots, then dispatches `(stack, false, error)`; a handler exception
propagates to the caller (second component). -/
def processLastException (hs : List Handler) (s : RState) :
    RState × Option JsExn :=
  let stack := s.lastExceptionStack
  let exId := s.lastException
  let s := { s with lastExceptionStack := none, lastException := none }
  let arg : NotifyArg := (stack, false, exId)
  let exc := (notifyHandlers hs arg).2
  ({ s with log := s.log ++ [arg] }, exc)

/-- What a `report` call does to its caller. -/
inductive ReportOutcome where
  | normal                        -- returned without throwing
  | threwError (id : Nat)         -- `throw ex` (the re-raise)
  | threwHandler (e : JsExn)      -- a subscriber exception escaped the flush
  | threwInternal (e : JsExn)     -- computeStackTrace itself threw
  deriving DecidableEq, Repr

/-- The tail of `report` shared by both entry paths: compute the trace,
occupy the slot, schedule the flush (delay 2000 when the trace is
`incomplete`, else 0), then re-throw the error. -/
def reportCore (env : Env) (s : RState) (exId : Nat) (ex : JsError) :
    RState × ReportOutcome :=
  match computeStackTrace env ex none with
  | .error e => (s, .threwInternal e)
  | .ok stack =>
    ({ s with
        lastExceptionStack := some stack
        lastException := some exId
        timers := s.timers ++ [(exId, if truthyB stack.incomplete then 2000 else 0)] },
      .threwError exId)

/-- `report(ex)`. -/
def report (hs : List Handler) (env : Env) (s : RState) (exId : Nat)
    (ex : JsError) : RState × ReportOutcome :=
  if s.lastExceptionStack.isSome then
    if s.lastException = some exId then
      (s, .normal)   -- already caught by an inner catch block, ignore
    else
      let r := processLastException hs s
      match r.2 with
      | some e => (r.1, .threwHandler e)
      | none => reportCore env r.1 exId ex
  else reportCore env s exId ex

/-- The `setTimeout` callback scheduled by `report`: flush only if the
captured error is still the pending one. -/
def fireTimer (hs : List Handler) (s : RState) (exId : Nat) : RState :=
  if s.lastException = some exId then (processLastException hs s).1 else s

/-- Fire every scheduled timer, in order. -/
def drainTimers (hs : List Handler) (s : RState) : RState :=
  s.timers.foldl (fun st t => fireTimer hs st t.1) { s with timers := [] }

/-! # Theorems

## Shared helper lemmas -/

theorem notifyLoop_fst (arg : NotifyArg) (hs : List Handler) (exc : Option JsExn) :
    (notifyLoop arg hs exc).1 = hs.map (fun h => h arg) := by
  induction hs generalizing exc with
  | nil => rfl
  | cons h rest ih =>
    simp only [notifyLoop, List.map_cons]
    cases h arg <;> simp [ih]

theorem notifyLoop_pure (arg : NotifyArg) (hs : List Handler) (exc : Option JsExn)
    (hp : ∀ h ∈ hs, h arg = none) : (notifyLoop arg hs exc).2 = exc := by
  induction hs generalizing exc with
  | nil => rfl
  | cons h rest ih =>
    have hh : h arg = none := hp h (by simp)
    simp only [notifyLoop, hh]
    exact ih exc (fun h2 hm => hp h2 (by simp [hm]))

theorem notifyLoop_last (arg : NotifyArg) (pre : List Handler) (h : Handler)
    (post : List Handler) (e : JsExn) (exc : Option JsExn)
    (hthrow : h arg = some e) (hpost : ∀ h2 ∈ post, h2 arg = none) :
    (notifyLoop arg (pre ++ h :: post) exc).2 = some e := by
  induction pre generalizing exc with
  | nil =>
    simp only [List.nil_append, notifyLoop, hthrow]
    exact notifyLoop_pure arg post (some e) hpost
  | cons h0 rest ih =>
    simp only [List.cons_append, notifyLoop]
    cases h0 arg <;> exact ih _

/-- `computeStackTrace` never throws (with `debug` off every strategy
failure falls through to the next strategy or to the degraded result). -/
theorem computeStackTrace_total (env : Env) (ex : JsError) (d : Option Int) :
    ∃ t, computeStackTrace env ex d = .ok t := by
  unfold computeStackTrace
  simp only [Config.debug, if_false]
  cases computeStackTraceFromStacktraceProp env ex with
  | ok o1 =>
    cases o1 with
    | some t => exact ⟨t, rfl⟩
    | none =>
      cases computeStackTraceFromStackProp env ex with
      | ok o2 =>
        cases o2 with
        | some t => exact ⟨t, rfl⟩
        | none =>
          cases computeStackTraceFromOperaMultiLineMessage env ex with
          | ok o3 =>
            cases o3 with
            | some t => exact ⟨t, rfl⟩
            | none =>
              cases computeStackTraceByWalkingCallerChain env ex _ with
              | ok t => exact ⟨t, rfl⟩
              | error e => exact ⟨failedTrace ex, rfl⟩
          | error e =>
            cases computeStackTraceByWalkingCallerChain env ex _ with
            | ok t => exact ⟨t, rfl⟩
            | error e2 => exact ⟨failedTrace ex, rfl⟩
      | error e =>
        cases computeStackTraceFromOperaMultiLineMessage env ex with
        | ok o3 =>
          cases o3 with
          | some t => exact ⟨t, rfl⟩
          | none =>
            cases computeStackTraceByWalkingCallerChain env ex _ with
            | ok t => exact ⟨t, rfl⟩
            | error e2 => exact ⟨failedTrace ex, rfl⟩
        | error e2 =>
          cases computeStackTraceByWalkingCallerChain env ex _ with
          | ok t => exact ⟨t, rfl⟩
          | error e3 => exact ⟨failedTrace ex, rfl⟩
  | error e =>
    cases computeStackTraceFromStackProp env ex with
    | ok o2 =>
      cases o2 with
      | some t => exact ⟨t, rfl⟩
      | none =>
        cases computeStackTraceFromOperaMultiLineMessage env ex with
        | ok o3 =>
          cases o3 with
          | some t => exact ⟨t, rfl⟩
          | none =>
            cases computeStackTraceByWalkingCallerChain env ex _ with
            | ok t => exact ⟨t, rfl⟩
            | error e2 => exact ⟨failedTrace ex, rfl⟩
        | error e2 =>
          cases computeStackTraceByWalkingCallerChain env ex _ with
          | ok t => exact ⟨t, rfl⟩
          | error e3 => exact ⟨failedTrace ex, rfl⟩
    | error e2 =>
      cases computeStackTraceFromOperaMultiLineMessage env ex with
      | ok o3 =>
        cases o3 with
        | some t => exact ⟨t, rfl⟩
        | none =>
          cases computeStackTraceByWalkingCallerChain env ex _ with
          | ok t => exact ⟨t, rfl⟩
          | error e3 => exact ⟨failedTrace ex, rfl⟩
      | error e3 =>
        cases computeStackTraceByWalkingCallerChain env ex _ with
        | ok t => exact ⟨t, rfl⟩
        | error e4 => exact ⟨failedTrace ex, rfl⟩

/-! ## C7: subscriber dispatch -/

/-- **C7.** `notifyHandlers` invokes every handler with the same three
arguments (the outcome transcript is exactly the pointwise application);
a throwing handler does not stop the loop; if no handler throws the
dispatch returns normally; and the exception re-raised after the loop is
the one of the last handler that threw, earlier ones being discarded. -/
theorem c7_notifyHandlers_last_failure_wins (hs : List Handler) (arg : NotifyArg) :
    (notifyHandlers hs arg).1 = hs.map (fun h => h arg) ∧
    ((∀ h ∈ hs, h arg = none) → (notifyHandlers hs arg).2 = none) ∧
    (∀ pre h post e, hs = pre ++ h :: post → h arg = some e →
      (∀ h2 ∈ post, h2 arg = none) → (notifyHandlers hs arg).2 = some e) := by
  have hguard : ∀ r : List (Option JsExn) × Option JsExn,
      (if arg.2.1 ∧ ¬ Config.collectWindowErrors then ([], none) else r) = r := by
    intro r
    simp [Config.collectWindowErrors]
  refine ⟨?_, ?_, ?_⟩
  · rw [notifyHandlers, hguard]
    exact notifyLoop_fst arg hs none
  · intro hp
    rw [notifyHandlers, hguard]
    exact notifyLoop_pure arg hs none hp
  · intro pre h post e hsplit hthrow hpost
    rw [notifyHandlers, hguard, hsplit]
    exact notifyLoop_last arg pre h post e none hthrow hpost

def c7hs : List Handler :=
  [fun _ => some (.userExn 1), fun _ => some (.userExn 2), fun _ => none]

def c7arg : NotifyArg := (none, true, none)

/-- Witness for C7 at a concrete handler list: both throwing handlers run,
the non-throwing one runs after them, and the second (last) exception is
the re-raised one. -/
theorem c7_witness :
    (notifyHandlers c7hs c7arg).1 =
      [some (JsExn.userExn 1), some (JsExn.userExn 2), none] ∧
    (notifyHandlers c7hs c7arg).2 = some (JsExn.userExn 2) := by
  refine ⟨(c7_notifyHandlers_last_failure_wins c7hs c7arg).1.trans rfl, ?_⟩
  refine (c7_notifyHandlers_last_failure_wins c7hs c7arg).2.2
    [fun _ => some (.userExn 1)] (fun _ => some (.userExn 2)) [fun _ => none]
    (JsExn.userExn 2) rfl rfl ?_
  intro h2 hm
  simp only [List.mem_singleton] at hm
  subst hm
  rfl

/-! ## C10: default configuration starves the source cache -/

/-- Every cache entry is the empty line list (the only reachable cache
contents while `remoteFetching` is off). -/
def cacheAllEmpty (cache : List (String × List String)) : Prop :=
  ∀ e ∈ cache, e.2 = []

theorem getSource_empty (env : Env) (h : cacheAllEmpty env.cache)
    (url : Option String) : getSource env url = [] := by
  cases url with
  | none => rfl
  | some u =>
    have hload : loadSource env u = "" := by
      simp [loadSource, Config.remoteFetching]
    cases hf : env.cache.find? (fun e => e.1 = u) with
    | some e =>
      simp only [getSource, hf]
      exact h e (List.mem_of_find?_eq_some hf)
    | none =>
      simp only [getSource, hf, hload]
      cases hd : execRe domainRe u with
      | some m => simp
      | none => simp

/-- **C10.** With the default configuration (`remoteFetching = false`),
`getSource` yields the empty line list for every URL (in particular every
uncached one), the cache can only ever acquire empty entries, and therefore
`guessFunctionName` always answers the unknown sentinel `?` and
`gatherContext` always answers `none`. -/
theorem c10_remote_fetching_off_starves (env : Env) (h : cacheAllEmpty env.cache)
    (url : Option String) (line : Int) :
    getSource env url = [] ∧
    cacheAllEmpty (getSourceCacheAfter env url) ∧
    guessFunctionName env url line = UNKNOWN_FUNCTION ∧
    gatherContext env url line = none := by
  have hget : getSource env url = [] := getSource_empty env h url
  refine ⟨hget, ?_, ?_, ?_⟩
  · cases url with
    | none => exact h
    | some u =>
      have hload : loadSource env u = "" := by
        simp [loadSource, Config.remoteFetching]
      cases hf : env.cache.find? (fun e => e.1 = u) with
      | some e =>
        simp only [getSourceCacheAfter, hf]
        exact h
      | none =>
        simp only [getSourceCacheAfter, hf, hload]
        intro ent hm
        cases hd : execRe domainRe u with
        | some m =>
          simp only [hd] at hm
          rcases List.mem_cons.mp hm with hh | ht
          · subst hh
            split <;> simp_all
          · exact h ent ht
        | none =>
          simp only [hd] at hm
          rcases List.mem_cons.mp hm with hh | ht
          · subst hh
            simp
          · exact h ent ht
  · rw [guessFunctionName, hget]
    rfl
  · rw [gatherContext, hget]
    rfl

/-! ## C8: gatherContext window shape -/

/-- **C8.** With `linesOfContext = 11`: (a) on a source of at least 11
lines, a target line at least 6 from the start and at least 5 from the end
yields exactly the 11-line window `source[line-6 .. line+5)`, whose middle
element (index 5, with 5 lines before and 5 after) is the target line;
(b) a target line near the top of the file (`line < 6`) yields a shorter
window that still contains the target line at its original position;
(c) an empty source, or a window clipped to zero lines, yields `none`. -/
theorem c8_gatherContext_window (env : Env) (u : String) (src : List String)
    (line : Int) (hsrc : getSource env (some u) = src) :
    ((6 ≤ line ∧ line + 5 ≤ src.length) →
      gatherContext env (some u) line = some ((src.drop (line - 6).toNat).take 11) ∧
      ((src.drop (line - 6).toNat).take 11).length = 11 ∧
      ((src.drop (line - 6).toNat).take 11).get? 5 = src.get? (line - 1).toNat) ∧
    ((1 ≤ line ∧ line < 6 ∧ line ≤ src.length) →
      ∃ ctx, gatherContext env (some u) line = some ctx ∧ ctx.length < 11 ∧
        ctx.get? (line - 1).toNat = src.get? (line - 1).toNat) ∧
    ((src.length = 0 ∨ (src.length : Int) + 6 ≤ line) →
      gatherContext env (some u) line = none) := by
  have hunfold : gatherContext env (some u) line =
      (if src.length = 0 then none
       else
        if 0 < ((src.drop (max 0 (line - 5 - 1)).toNat).take
            (min (src.length : Int) (line + 6 - 1) - max 0 (line - 5 - 1)).toNat).length
        then some ((src.drop (max 0 (line - 5 - 1)).toNat).take
            (min (src.length : Int) (line + 6 - 1) - max 0 (line - 5 - 1)).toNat)
        else none) := by
    rw [gatherContext, hsrc]
    norm_num [Config.linesOfContext]
  refine ⟨?_, ?_, ?_⟩
  · rintro ⟨h6, hlen⟩
    have hne : ¬ src.length = 0 := by omega
    have hstart : max 0 (line - 5 - 1) = line - 6 := by omega
    have hstop : min (src.length : Int) (line + 6 - 1) = line + 5 := by omega
    have hwidth : (line + 5 - (line - 6)).toNat = 11 := by omega
    have hlen11 : ((src.drop (line - 6).toNat).take 11).length = 11 := by
      rw [List.length_take, List.length_drop]
      omega
    refine ⟨?_, hlen11, ?_⟩
    · rw [hunfold, if_neg hne, hstart, hstop, hwidth,
        if_pos (by rw [hlen11]; omega)]
    · rw [List.get?_take (by omega), List.get?_drop]
      congr 1
      omega
  · rintro ⟨h1, h6, hlen⟩
    have hne : ¬ src.length = 0 := by omega
    have hstart : max 0 (line - 5 - 1) = 0 := by omega
    have hlenpos : 0 <
        ((src.drop ((0 : Int)).toNat).take
          (min (src.length : Int) (line + 6 - 1) - 0).toNat).length := by
      rw [List.length_take, List.length_drop]
      omega
    refine ⟨(src.drop ((0 : Int)).toNat).take
        (min (src.length : Int) (line + 6 - 1) - 0).toNat, ?_, ?_, ?_⟩
    · rw [hunfold, if_neg hne, hstart, if_pos hlenpos]
    · rw [List.length_take, List.length_drop]
      omega
    · rw [List.get?_take (by omega), List.get?_drop]
      congr 1
      omega
  · intro hcase
    by_cases hz : src.length = 0
    · rw [hunfold, if_pos hz]
    · rcases hcase with hzero | hfar
      · exact absurd hzero hz
      · have hstart : max 0 (line - 5 - 1) = line - 6 := by omega
        have hwidth :
            (min (src.length : Int) (line + 6 - 1) - (line - 6)).toNat = 0 := by
          omega
        rw [hunfold, if_neg hz, hstart, hwidth]
        simp

def c8src : List String :=
  ["l1", "l2", "l3", "l4", "l5", "l6", "l7", "l8", "l9", "l10", "l11", "l12"]

def c8env : Env := { cache := [("u", c8src)] }

/-- Witness for C8 on a cached 12-line file: line 7 gets the full centered
11-line window, line 2 gets a shorter window still containing line 2, and
an uncached URL (empty source) gets `none`. -/
theorem c8_witness :
    gatherContext c8env (some "u") 7 =
      some ((c8src.drop ((7 : Int) - 6).toNat).take 11) ∧
    ((c8src.drop ((7 : Int) - 6).toNat).take 11).get? 5 =
      c8src.get? ((7 : Int) - 1).toNat ∧
    (∃ ctx, gatherContext c8env (some "u") 2 = some ctx ∧ ctx.length < 11 ∧
      ctx.get? ((2 : Int) - 1).toNat = c8src.get? ((2 : Int) - 1).toNat) ∧
    gatherContext c8env (some "z") 9 = none := by
  have h7 := c8_gatherContext_window c8env ("u") c8src 7 rfl
  have h2 := c8_gatherContext_window c8env ("u") c8src 2 rfl
  have hz := c8_gatherContext_window c8env ("z") [] 9 (by rfl)
  exact ⟨(h7.1 (by decide)).1, (h7.1 (by decide)).2.2,
    h2.2.1 (by decide), hz.2.2 (Or.inl rfl)⟩

/-- `processLastException` in closed form. -/
theorem processLastException_eq (hs : List Handler) (s : RState) :
    processLastException hs s =
      ({ s with
          lastExceptionStack := none
          lastException := none
          log := s.log ++ [(s.lastExceptionStack, false, s.lastException)] },
        (notifyHandlers hs (s.lastExceptionStack, false, s.lastException)).2) :=
  rfl

/-- `report` from an idle slot in closed form. -/
theorem report_idle (hs : List Handler) (env : Env) (s : RState) (exId : Nat)
    (ex : JsError) (t : StackTrace) (hidle : s.lastExceptionStack = none)
    (hEx : computeStackTrace env ex none = .ok t) :
    report hs env s exId ex =
      ({ s with
          lastExceptionStack := some t
          lastException := some exId
          timers := s.timers ++ [(exId, if truthyB t.incomplete then 2000 else 0)] },
        .threwError exId) := by
  rw [report, if_neg (by rw [hidle]; simp), reportCore, hEx]

/-- `report` with a distinct error pending and non-throwing subscribers, in
closed form: the pending report is flushed synchronously, then the slot is
re-occupied and the new error re-raised. -/
theorem report_pending_distinct (hs : List Handler) (env : Env) (s : RState)
    (exId : Nat) (ex : JsError) (t : StackTrace)
    (hsome : s.lastExceptionStack.isSome) (hdiff : ¬ s.lastException = some exId)
    (hnone : (notifyHandlers hs (s.lastExceptionStack, false, s.lastException)).2 = none)
    (hEx : computeStackTrace env ex none = .ok t) :
    report hs env s exId ex =
      ({ s with
          lastExceptionStack := some t
          lastException := some exId
          timers := s.timers ++ [(exId, if truthyB t.incomplete then 2000 else 0)]
          log := s.log ++ [(s.lastExceptionStack, false, s.lastException)] },
        .threwError exId) := by
  rw [report, if_pos hsome, if_neg hdiff]
  simp only [processLastException_eq, hnone, reportCore, hEx]

/-- A timer firing for an error that is no longer pending is a no-op. -/
theorem fireTimer_miss (hs : List Handler) (s : RState) (exId : Nat)
    (h : ¬ s.lastException = some exId) : fireTimer hs s exId = s := by
  rw [fireTimer, if_neg h]

/-- A timer firing for the still-pending error flushes it. -/
theorem fireTimer_hit (hs : List Handler) (s : RState) (exId : Nat)
    (h : s.lastException = some exId) :
    fireTimer hs s exId = (processLastException hs s).1 := by
  rw [fireTimer, if_pos h]

/-! ## C9: flush order (clear vs. deliver) -/

/-- **C9 (corrected).** Flushing a pending report first clears the Pending
slot (both `lastExceptionStack` and `lastException` become `none`), and only
then delivers `(trace, isWindowError = false, error)` to the subscribers;
consequently the slot is already Idle even when a subscriber's exception
propagates out of the delivery. -/
theorem c9_flush_clears_before_delivering (hs : List Handler) (s : RState)
    (t : StackTrace) (exId : Nat)
    (h1 : s.lastExceptionStack = some t) (h2 : s.lastException = some exId) :
    (processLastException hs s).1.lastException = none ∧
    (processLastException hs s).1.lastExceptionStack = none ∧
    (processLastException hs s).1.log = s.log ++ [(some t, false, some exId)] ∧
    (processLastException hs s).2 =
      (notifyHandlers hs (some t, false, some exId)).2 := by
  unfold processLastException
  rw [h1, h2]
  exact ⟨rfl, rfl, rfl, rfl⟩

/-- Witness for C9 at a concrete pending state with a non-throwing handler. -/
theorem c9_witness :
    (processLastException [fun _ => none] ⟨some 3, some (failedTrace {}), [], []⟩).1.lastException = none ∧
    (processLastException [fun _ => none] ⟨some 3, some (failedTrace {}), [], []⟩).1.lastExceptionStack = none ∧
    (processLastException [fun _ => none] ⟨some 3, some (failedTrace {}), [], []⟩).1.log =
      [] ++ [(some (failedTrace {}), false, some 3)] ∧
    (processLastException [fun _ => none] ⟨some 3, some (failedTrace {}), [], []⟩).2 =
      (notifyHandlers [fun _ => none] (some (failedTrace {}), false, some 3)).2 :=
  c9_flush_clears_before_delivering [fun _ => none]
    ⟨some 3, some (failedTrace {}), [], []⟩ (failedTrace {}) 3 rfl rfl

/-- Counterexample to C9 as stated: with a throwing subscriber, the
exception propagates out of the flush, yet the Pending slot is already
empty — the clearing step precedes (not follows) the delivery, so the trace
claimed ("the clearing step ordered after delivery determines whether the
slot is still occupied") fails. -/
theorem c9_counterexample :
    (processLastException [fun _ => some (.userExn 7)]
      ⟨some 3, some (failedTrace {}), [], []⟩).2 = some (.userExn 7) ∧
    (processLastException [fun _ => some (.userExn 7)]
      ⟨some 3, some (failedTrace {}), [], []⟩).1.lastExceptionStack = none :=
  ⟨rfl, rfl⟩

/-! ## C2: does `report` always re-raise? -/

/-- **C2 (corrected).** `report(ex)` re-raises `ex` on the path where the
slot is idle and on the path where a *different* error is pending and its
flush raises no subscriber exception; but on the path where the *same*
error (by identity) is already pending, `report` returns normally without
raising, and on the distinct-pending path a subscriber exception raised by
the synchronous flush propagates in place of `ex`. -/
theorem c2_report_reraise_paths (hs : List Handler) (env : Env) (s : RState)
    (exId : Nat) (ex : JsError) :
    (s.lastExceptionStack = none →
      ∃ s2, report hs env s exId ex = (s2, .threwError exId)) ∧
    (s.lastExceptionStack.isSome → s.lastException = some exId →
      report hs env s exId ex = (s, .normal)) ∧
    (s.lastExceptionStack.isSome → s.lastException ≠ some exId →
      (notifyHandlers hs (s.lastExceptionStack, false, s.lastException)).2 = none →
      ∃ s2, report hs env s exId ex = (s2, .threwError exId)) ∧
    (s.lastExceptionStack.isSome → s.lastException ≠ some exId →
      ∀ e, (notifyHandlers hs (s.lastExceptionStack, false, s.lastException)).2 = some e →
      report hs env s exId ex = ((processLastException hs s).1, .threwHandler e)) := by
  obtain ⟨t, ht⟩ := computeStackTrace_total env ex none
  refine ⟨?_, ?_, ?_, ?_⟩
  · intro hidle
    exact ⟨_, report_idle hs env s exId ex t hidle ht⟩
  · intro hsome hsame
    rw [report, if_pos hsome, if_pos hsame]
  · intro hsome hdiff hpure
    exact ⟨_, report_pending_distinct hs env s exId ex t hsome hdiff hpure ht⟩
  · intro hsome hdiff e hthrow
    rw [report, if_pos hsome, if_neg hdiff]
    simp only [processLastException_eq, hthrow]

/-- Witness for C2 at the idle state (the re-raise path). -/
theorem c2_witness :
    ∃ s2, report [] {} RState.idle 0 {} = (s2, .threwError 0) :=
  (c2_report_reraise_paths [] {} RState.idle 0 {}).1 rfl

/-- Counterexample to C2 as stated: with a report for the same error (by
identity) already pending, `report` returns normally — it does **not**
re-raise the error on that path. -/
theorem c2_counterexample :
    report [] {} ⟨some 0, some (failedTrace {}), [], []⟩ 0 {} =
      (⟨some 0, some (failedTrace {}), [], []⟩, .normal) :=
  rfl

/-! ## C5: same-error idempotence -/

/-- **C5.** Reporting the same error (by identity) twice in immediate
succession: the second call is a no-op on the pending state (it returns
normally and changes nothing), and after the scheduled timers fire the
subscribers have received exactly one delivery, carrying that error's
trace. -/
theorem c5_report_same_error_once (hs : List Handler) (env : Env) (exId : Nat)
    (ex : JsError) :
    ∃ t, computeStackTrace env ex none = .ok t ∧
      (report hs env RState.idle exId ex).2 = .threwError exId ∧
      report hs env (report hs env RState.idle exId ex).1 exId ex =
        ((report hs env RState.idle exId ex).1, .normal) ∧
      (drainTimers hs (report hs env RState.idle exId ex).1).log =
        [(some t, false, some exId)] := by
  obtain ⟨t, ht⟩ := computeStackTrace_total env ex none
  have hr := report_idle hs env RState.idle exId ex t rfl ht
  have hrfst : (report hs env RState.idle exId ex).1 =
      (⟨some exId, some t, [(exId, if truthyB t.incomplete then 2000 else 0)], []⟩ : RState) := by
    rw [hr]
    rfl
  refine ⟨t, ht, by rw [hr], ?_, ?_⟩
  · rw [hrfst, report, if_pos (by rfl), if_pos rfl]
  · rw [hrfst]
    simp only [drainTimers, List.foldl_cons, List.foldl_nil]
    rw [fireTimer_hit hs _ exId rfl]
    rfl

/-! ## C6: distinct-error flush order -/

/-- **C6.** Reporting a second, distinct error while the first is still
pending flushes the first synchronously (before occupying the slot) and
re-raises the second error; once the scheduled timers fire, the subscribers
have received exactly two deliveries, the first error's trace first and the
second error's trace second. -/
theorem c6_report_distinct_two_deliveries (hs : List Handler) (env : Env)
    (id1 id2 : Nat) (ex1 ex2 : JsError) (hne : id1 ≠ id2)
    (hpure : ∀ h ∈ hs, ∀ a, h a = none) :
    ∃ t1 t2, computeStackTrace env ex1 none = .ok t1 ∧
      computeStackTrace env ex2 none = .ok t2 ∧
      (report hs env (report hs env RState.idle id1 ex1).1 id2 ex2).2 =
        .threwError id2 ∧
      (drainTimers hs (report hs env (report hs env RState.idle id1 ex1).1 id2 ex2).1).log =
        [(some t1, false, some id1), (some t2, false, some id2)] := by
  obtain ⟨t1, ht1⟩ := computeStackTrace_total env ex1 none
  obtain ⟨t2, ht2⟩ := computeStackTrace_total env ex2 none
  have hnotify : ∀ arg : NotifyArg, (notifyHandlers hs arg).2 = none := by
    intro arg
    rw [notifyHandlers]
    split
    · rfl
    · exact notifyLoop_pure arg hs none (fun h hm => hpure h hm arg)
  have hr1 := report_idle hs env RState.idle id1 ex1 t1 rfl ht1
  have hr1fst : (report hs env RState.idle id1 ex1).1 =
      (⟨some id1, some t1, [(id1, if truthyB t1.incomplete then 2000 else 0)], []⟩ : RState) := by
    rw [hr1]
    rfl
  have hr2 := report_pending_distinct hs env
    (⟨some id1, some t1, [(id1, if truthyB t1.incomplete then 2000 else 0)], []⟩ : RState)
    id2 ex2 t2 (by rfl) (by simpa using hne) (hnotify _) ht2
  have hr2lit : report hs env
      (⟨some id1, some t1, [(id1, if truthyB t1.incomplete then 2000 else 0)], []⟩ : RState)
      id2 ex2 =
      (⟨some id2, some t2,
        [(id1, if truthyB t1.incomplete then 2000 else 0),
         (id2, if truthyB t2.incomplete then 2000 else 0)],
        [(some t1, false, some id1)]⟩,
        .threwError id2) := hr2.trans (by rfl)
  refine ⟨t1, t2, ht1, ht2, ?_, ?_⟩
  · rw [hr1fst, hr2lit]
  · rw [hr1fst, hr2lit]
    show (fireTimer hs (fireTimer hs
        (⟨some id2, some t2, [], [(some t1, false, some id1)]⟩ : RState) id1) id2).log =
      [(some t1, false, some id1), (some t2, false, some id2)]
    rw [fireTimer_miss hs _ id1 (by simpa using Ne.symm hne),
      fireTimer_hit hs _ id2 rfl]
    rfl

/-- Witness for C6 with one (non-throwing) subscriber and two distinct
error identities. -/
theorem c6_witness :
    ∃ t1 t2, computeStackTrace {} ({} : JsError) none = .ok t1 ∧
      computeStackTrace {} ({} : JsError) none = .ok t2 ∧
      (report [fun _ => none] {}
        (report [fun _ => none] {} RState.idle 0 {}).1 1 {}).2 = .threwError 1 ∧
      (drainTimers [fun _ => none]
        (report [fun _ => none] {}
          (report [fun _ => none] {} RState.idle 0 {}).1 1 {}).1).log =
        [(some t1, false, some 0), (some t2, false, some 1)] :=
  c6_report_distinct_two_deliveries [fun _ => none] {} 0 1 {} {} (by decide)
    (by
      intro h hm a
      simp only [List.mem_singleton] at hm
      subst hm
      rfl)

/-! ## C3: the degraded result -/

/-- **C3.** A raised value with no `stack`, no `stacktrace`, no multi-line
message (absent, or fewer than 4 lines) and an unusable caller chain makes
`computeStackTrace` return — not throw — the degraded trace: mode
`"failed"` and an empty frame sequence. -/
theorem c3_unrecoverable_failed (env : Env) (ex : JsError)
    (h1 : ex.stack = none) (h2 : ex.stacktrace = none)
    (h3 : ex.message = none ∨ ∃ m, ex.message = some m ∧ (jsSplit m '\n').length < 4)
    (h4 : env.callerChain = none) :
    computeStackTrace env ex none = .ok (failedTrace ex) ∧
    (failedTrace ex).mode = "failed" ∧ (failedTrace ex).frames = [] := by
  have hst : computeStackTraceFromStacktraceProp env ex = .ok none := by
    unfold computeStackTraceFromStacktraceProp
    rw [h2]
    rfl
  have hsp : computeStackTraceFromStackProp env ex = .ok none := by
    unfold computeStackTraceFromStackProp
    rw [h1]
    rfl
  have hcc : ∀ dep, computeStackTraceByWalkingCallerChain env ex dep =
      .error .typeError := by
    intro dep
    unfold computeStackTraceByWalkingCallerChain
    rw [h4]
  refine ⟨?_, rfl, rfl⟩
  rcases h3 with hm | ⟨m, hm, hlen⟩
  · have hml : computeStackTraceFromOperaMultiLineMessage env ex =
        .error .typeError := by
      unfold computeStackTraceFromOperaMultiLineMessage
      rw [hm]
    unfold computeStackTrace
    simp [hst, hsp, hml, hcc, Config.debug]
  · have hml : computeStackTraceFromOperaMultiLineMessage env ex = .ok none := by
      unfold computeStackTraceFromOperaMultiLineMessage
      simp only [hm]
      rw [if_pos hlen]
    unfold computeStackTrace
    simp [hst, hsp, hml, hcc, Config.debug]

/-- Witness for C3 at the field-less error in the strict-mode environment. -/
theorem c3_witness :
    computeStackTrace {} ({} : JsError) none = .ok (failedTrace {}) ∧
    (failedTrace ({} : JsError)).mode = "failed" ∧
    (failedTrace ({} : JsError)).frames = [] :=
  c3_unrecoverable_failed {} {} rfl rfl (Or.inl rfl) rfl

/-! ## C4: the augmentation merge policy -/

/-- The candidate top frame that `augmentStackTraceWithInitialElement`
builds from `(url, lineNo, message)` when `url` and `lineNo` are present
(name guessed, context gathered, column recovered from a quoted identifier
in the message). -/
def initialElement (env : Env) (url : Option String) (lineNo : Option Int)
    (message : Option String) : Element :=
  ⟨url, some (guessFunctionName env url (lineNo.getD 0)), [], lineNo,
    (match execRe quotedRefRe (jsStr message) with
      | some m => findSourceInLine env (jsStr (m.grp 1)) url (lineNo.getD 0)
      | none => none),
    (gatherContext env url (lineNo.getD 0)).map (fun l => l.map some)⟩

/-- **C4 (corrected).** The merge policy of
`augmentStackTraceWithInitialElement`, branch by branch.  When `url` and
`lineNo` are both present, the function always resets `incomplete` to
`false` first (so the "already present" branch is *not* a strict no-op on
the trace); then: top frame matching on url and line → nothing else
changes, `false` returned; url matches, top frame has no line and the
function names match → the top frame's line and context are backfilled in
place (frame count unchanged), `false` returned; otherwise → the candidate
becomes the new top frame, `partial` is set, `true` returned; with no
frames at all the candidate is inserted the same way.  When `url` or
`lineNo` is missing the only change is `incomplete := true`, with `false`
returned. -/
theorem c4_augment_merge_policy (env : Env) (info : StackTrace)
    (frames : List Element) (url : Option String) (lineNo : Option Int)
    (message : Option String) (hstack : info.stack = some frames) :
    (¬ (truthyS url ∧ truthyI lineNo) →
      augmentStackTraceWithInitialElement env info url lineNo message =
        .ok ({ info with incomplete := some true }, false)) ∧
    ((truthyS url ∧ truthyI lineNo) →
      (frames = [] →
        augmentStackTraceWithInitialElement env info url lineNo message =
          .ok ({ info with
              incomplete := some false
              stack := some [initialElement env url lineNo message]
              partialFlag := some true }, true)) ∧
      (∀ f0 rest, frames = f0 :: rest →
        (f0.url = url → f0.line = lineNo →
          augmentStackTraceWithInitialElement env info url lineNo message =
            .ok ({ info with incomplete := some false }, false)) ∧
        (f0.url = url → ¬ truthyI f0.line →
          f0.func = some (guessFunctionName env url (lineNo.getD 0)) →
          augmentStackTraceWithInitialElement env info url lineNo message =
            .ok ({ info with
                incomplete := some false
                stack := some ({ f0 with
                  line := lineNo
                  context := (gatherContext env url (lineNo.getD 0)).map
                    (fun l => l.map some) } :: rest) }, false)) ∧
        (¬ (f0.url = url ∧ (f0.line = lineNo ∨ (¬ truthyI f0.line ∧
              f0.func = some (guessFunctionName env url (lineNo.getD 0))))) →
          augmentStackTraceWithInitialElement env info url lineNo message =
            .ok ({ info with
                incomplete := some false
                stack := some (initialElement env url lineNo message :: f0 :: rest)
                partialFlag := some true }, true)))) := by
  constructor
  · intro hmiss
    unfold augmentStackTraceWithInitialElement
    rw [if_neg hmiss]
  · intro htr
    constructor
    · intro hnil
      subst hnil
      unfold augmentStackTraceWithInitialElement
      rw [if_pos htr, hstack]
      rfl
    · intro f0 rest hcons
      subst hcons
      refine ⟨?_, ?_, ?_⟩
      · intro hurl hline
        unfold augmentStackTraceWithInitialElement
        rw [if_pos htr, hstack]
        simp [hurl, hline]
      · intro hurl hnoline hfunc
        have hlinene : ¬ f0.line = lineNo := by
          intro he
          rw [he] at hnoline
          exact hnoline htr.2
        unfold augmentStackTraceWithInitialElement
        rw [if_pos htr, hstack]
        simp [hurl, hlinene, hnoline, hfunc]
      · intro hinsert
        unfold augmentStackTraceWithInitialElement
        rw [if_pos htr, hstack]
        by_cases hurl : f0.url = url
        · have hnotline : ¬ f0.line = lineNo := fun hl =>
            hinsert ⟨hurl, Or.inl hl⟩
          have hnotback : ¬ (¬ truthyI f0.line ∧
              f0.func = some (guessFunctionName env url (lineNo.getD 0))) :=
            fun hb => hinsert ⟨hurl, Or.inr hb⟩
          simp [hurl, hnotline, hnotback, initialElement]
          exact fun hfl hf => hnotback ⟨by simp [hfl], hf⟩
        · simp [hurl, initialElement]

/-- Witness for C4 at the insertion-into-empty-frames branch: one frame
results and `partial` is set (the spec's "augmentation insertion"
scenario). -/
theorem c4_witness :
    augmentStackTraceWithInitialElement {}
      (⟨"callers", none, none, some [], none, none⟩ : StackTrace)
      (some "u") (some 5) none =
      .ok (⟨"callers", none, none,
        some [initialElement {} (some "u") (some 5) none], some true, some false⟩,
        true) := by
  have h := (c4_augment_merge_policy {}
    (⟨"callers", none, none, some [], none, none⟩ : StackTrace) []
    (some "u") (some 5) none rfl).2 (by decide) |>.1 rfl
  exact h.trans (by rfl)

/-- Counterexample to C4 as stated: in the "urls match and lines match"
branch the claim says the trace is returned *unchanged*, but the code has
already reset the trace's `incomplete` flag to `false`; starting from a
trace with `incomplete = true` the returned trace differs from the
original. -/
theorem c4_counterexample :
    augmentStackTraceWithInitialElement {}
      (⟨"callers", none, none, some [⟨some "u", some "?", [], some 5, none, none⟩],
        none, some true⟩ : StackTrace)
      (some "u") (some 5) none =
      .ok ((⟨"callers", none, none, some [⟨some "u", some "?", [], some 5, none, none⟩],
        none, some false⟩ : StackTrace), false) ∧
    (⟨"callers", none, none, some [⟨some "u", some "?", [], some 5, none, none⟩],
        none, some false⟩ : StackTrace) ≠
      (⟨"callers", none, none, some [⟨some "u", some "?", [], some 5, none, none⟩],
        none, some true⟩ : StackTrace) := by
  constructor
  · rfl
  · decide

/-! ## C1: orchestration order -/

/-- A strategy yielded no usable result: it returned null/undefined, or its
internal error was swallowed by the orchestrator (`debug` off). -/
def noResult (r : Except JsExn (Option StackTrace)) : Prop :=
  r = .ok none ∨ ∃ e, r = .error e

/-- Modelled from the claim's wording, NOT from the source: the claim
asserts the fixed order native-trace (`stack`), then alt-trace
(`stacktrace`), then embedded-multiline, then caller-walk, returning the
first non-null result.  The source's `computeStackTrace` instead reads the
`stacktrace` strategy first; this definition exists to exhibit the
difference. -/
def computeStackTraceClaimedOrder (env : Env) (ex : JsError)
    (depthArg : Option Int) : Except JsExn StackTrace :=
  let depth : Int := match depthArg with | none => 0 | some d => d
  let k4 : Except JsExn StackTrace :=
    match computeStackTraceByWalkingCallerChain env ex (depth + 1) with
    | .ok stack => .ok stack
    | .error e => if Config.debug then .error e else .ok (failedTrace ex)
  let k3 : Except JsExn StackTrace :=
    match computeStackTraceFromOperaMultiLineMessage env ex with
    | .ok (some stack) => .ok stack
    | .ok none => k4
    | .error e => if Config.debug then .error e else k4
  let k2 : Except JsExn StackTrace :=
    match computeStackTraceFromStacktraceProp env ex with
    | .ok (some stack) => .ok stack
    | .ok none => k3
    | .error e => if Config.debug then .error e else k3
  match computeStackTraceFromStackProp env ex with
  | .ok (some stack) => .ok stack
  | .ok none => k2
  | .error e => if Config.debug then .error e else k2

/-- **C1 (corrected).** The orchestrator tries the strategies in the fixed
order alt-trace (`stacktrace` property) first, then native-trace (`stack`
property), then embedded-multiline, then caller-walk, returning the first
strategy's non-null result; a strategy that yields nothing or throws
internally (swallowed, `debug` off) passes control to the next, and when
all four fail the degraded `mode = "failed"` trace is returned. -/
theorem c1_orchestration_order (env : Env) (ex : JsError) (d : Option Int) :
    (∀ t, computeStackTraceFromStacktraceProp env ex = .ok (some t) →
      computeStackTrace env ex d = .ok t) ∧
    (noResult (computeStackTraceFromStacktraceProp env ex) →
      ∀ t, computeStackTraceFromStackProp env ex = .ok (some t) →
      computeStackTrace env ex d = .ok t) ∧
    (noResult (computeStackTraceFromStacktraceProp env ex) →
      noResult (computeStackTraceFromStackProp env ex) →
      ∀ t, computeStackTraceFromOperaMultiLineMessage env ex = .ok (some t) →
      computeStackTrace env ex d = .ok t) ∧
    (noResult (computeStackTraceFromStacktraceProp env ex) →
      noResult (computeStackTraceFromStackProp env ex) →
      noResult (computeStackTraceFromOperaMultiLineMessage env ex) →
      ∀ t, computeStackTraceByWalkingCallerChain env ex
        ((match d with | none => 0 | some x => x) + 1) = .ok t →
      computeStackTrace env ex d = .ok t) ∧
    (noResult (computeStackTraceFromStacktraceProp env ex) →
      noResult (computeStackTraceFromStackProp env ex) →
      noResult (computeStackTraceFromOperaMultiLineMessage env ex) →
      (∃ e, computeStackTraceByWalkingCallerChain env ex
        ((match d with | none => 0 | some x => x) + 1) = .error e) →
      computeStackTrace env ex d = .ok (failedTrace ex)) := by
  refine ⟨?_, ?_, ?_, ?_, ?_⟩
  · intro t h
    unfold computeStackTrace
    simp [h]
  · rintro (h1 | ⟨e1, h1⟩) t h2 <;>
      { unfold computeStackTrace
        simp [h1, h2, Config.debug] }
  · rintro (h1 | ⟨e1, h1⟩) (h2 | ⟨e2, h2⟩) t h3 <;>
      { unfold computeStackTrace
        simp [h1, h2, h3, Config.debug] }
  · rintro (h1 | ⟨e1, h1⟩) (h2 | ⟨e2, h2⟩) (h3 | ⟨e3, h3⟩) t h4 <;>
      { unfold computeStackTrace
        simp [h1, h2, h3, h4, Config.debug] }
  · rintro (h1 | ⟨e1, h1⟩) (h2 | ⟨e2, h2⟩) (h3 | ⟨e3, h3⟩) ⟨e4, h4⟩ <;>
      { unfold computeStackTrace
        simp [h1, h2, h3, h4, Config.debug] }

/-- An error carrying both a parseable `stack` and a parseable `stacktrace`
(as Opera ≤ 10.x could produce). -/
def c1ex : JsError :=
  { name := some ("Error"), message := some ("boom"),
    stack := some ("at f (http://x/a.js:1:2)"),
    stacktrace := some ("  Line 5 of linked script http://x/a.js\n  code line") }

/-- Counterexample to C1 as stated: on an error where both the native-trace
and the alt-trace strategies succeed, the claimed order would return the
native-trace result (`mode = "stack"`), but the source returns the
alt-trace result (`mode = "stacktrace"`) — the `stacktrace` strategy is
attempted first, not second. -/
theorem c1_counterexample :
    (computeStackTraceClaimedOrder {} c1ex none).map StackTrace.mode =
      .ok ("stack") ∧
    (computeStackTrace {} c1ex none).map StackTrace.mode =
      .ok ("stacktrace") :=
  ⟨rfl, rfl⟩

/-- The trace the alt-trace strategy recovers from `c1ex`. -/
def c1AltTrace : StackTrace :=
  { mode := "stacktrace", name := some ("Error"), message := some ("boom"),
    stack := some [⟨some ("http://x/a.js"), some ("?"), [], some 5, none,
      some [some ("  code line")]⟩],
    partialFlag := none, incomplete := none }

/-- Witness for (amended) C1: at `c1ex` the alt-trace strategy yields a
trace and the orchestrator returns exactly it. -/
theorem c1_witness : computeStackTrace {} c1ex none = .ok c1AltTrace :=
  (c1_orchestration_order {} c1ex none).1 c1AltTrace (by rfl)

/-- Witness for C10 at the pristine environment. -/
theorem c10_witness :
    getSource {} (some "http://host/app.js") = [] ∧
    cacheAllEmpty (getSourceCacheAfter {} (some "http://host/app.js")) ∧
    guessFunctionName {} (some "http://host/app.js") 3 = UNKNOWN_FUNCTION ∧
    gatherContext {} (some "http://host/app.js") 3 = none :=
  c10_remote_fetching_off_starves {} (by intro e hm; simp at hm)
    (some "http://host/app.js") 3

end ErrorWatch
